import Mathlib

/-
Shallow embedding of the jsonata-python interpreter core (repository
pbaletkeman/jsonata-python) together with proofs about the embedded code.

The embedding follows the Python source under src/jsonata.  Python values
that can flow through the evaluator are modelled by the inductive type
JValue below; the Python value None (absent / undefined) is modelled by
Option JValue with none standing for Python None.  Python floats are
modelled exactly by rational numbers: every numeric literal appearing in
the claims is representable, and float rounding is irrelevant to the
properties proved here (a remark is placed where a conversion to float
occurs in the source).  Fallible Python code (raise JException) is
modelled with Except.
-/

namespace JsonataPy

/-- Model of the Python value universe handled by the interpreter:
null (the NullValue sentinel of Utils), booleans, ints, floats (exact,
as rationals), strings, lists and dicts.  Function values never occur in
the fragments proved about, so they are omitted.  Python None (absent)
is not a JValue; it is the none of Option JValue. -/
inductive JValue where
  | nullv : JValue
  | boolv (b : Bool) : JValue
  | intv (n : Int) : JValue
  | floatv (q : Rat) : JValue
  | strv (s : String) : JValue
  | arr (elems : List JValue) : JValue
  | obj (fields : List (String × JValue)) : JValue
  deriving Repr

/-- Error value modelled from the spec: errors surface as a single
exception-like channel carrying a stable code, a source position (or -1
when not applicable) and positional detail fields.  The class JException
itself is not present under src (only the package init file is), so the
carrier is modelled from the spec, with the payload as a list of optional
values mirroring the positional arguments passed at each raise site. -/
structure JErr where
  code : String
  location : Int
  xargs : List (Option JValue)
  deriving Repr

/-- Embedding of Utils.is_numeric (src/jsonata/Utils/Utils.py): booleans
are not numeric, ints are, floats are numeric unless NaN (raising D1001
on infinities).  NaN and infinity have no rational representation, so in
this model every float is numeric and the D1001 branch is unreachable. -/
def is_numeric : JValue → Bool
  | .boolv _ => false
  | .intv _ => true
  | .floatv _ => true
  | _ => false

/-- Truncation toward zero of a rational, the model of the Python int()
conversion applied to a float. -/
def rat_trunc (q : Rat) : Int :=
  if q < 0 then -⌊-q⌋ else ⌊q⌋

/-- Embedding of Utils.convert_number (src/jsonata/Utils/Utils.py):
the source tests int(n) == float(n) and returns the int when the number
is integral, else the float.  The source first re-checks is_numeric and
returns None for NaN; that branch is unreachable in the rational model,
so the Option result is always some. -/
def convert_number (q : Rat) : Option JValue :=
  if (rat_trunc q : Rat) = q then some (.intv (rat_trunc q))
  else some (.floatv q)

/-- Numeric coercion used by Python comparisons: float(v) for the numeric
values of the model.  Exact in the rational model.  Only applied after
the source has checked is_numeric, so the default branch is unreachable. -/
def to_rat : JValue → Rat
  | .intv n => (n : Rat)
  | .floatv q => q
  | _ => 0

/-- Model of math.fmod on exact rationals (rhs nonzero): the C-style
remainder x - trunc(x/y) * y, whose sign follows the dividend. -/
def py_fmod (x y : Rat) : Rat :=
  x - (rat_trunc (x / y) : Rat) * y

/-- Python equality (the == of CPython) restricted to the modelled value
universe: numbers (bools included, True == 1) compare numerically,
strings compare as strings, lists elementwise, dicts by key lookup
(Python dict keys are unique; insertion order is ignored by ==), and the
NullValue sentinel is equal only to itself (object identity, there being
a single NULL_VALUE instance). -/
def py_num_view : JValue → Option Rat
  | .boolv b => some (if b then 1 else 0)
  | .intv n => some (n : Rat)
  | .floatv q => some q
  | _ => none

mutual

def py_eq : JValue → JValue → Bool
  | .strv a, .strv b => a == b
  | .nullv, .nullv => true
  | .arr a, .arr b => py_eq_list a b
  | .obj a, .obj b => a.length == b.length && py_eq_fields a b
  | x, y =>
    match py_num_view x, py_num_view y with
    | some p, some q => p == q
    | _, _ => false

def py_eq_list : List JValue → List JValue → Bool
  | [], [] => true
  | x :: xs, y :: ys => py_eq x y && py_eq_list xs ys
  | _, _ => false

def py_eq_fields : List (String × JValue) → List (String × JValue) → Bool
  | [], _ => true
  | (k, v) :: rest, b =>
    (match b.find? (fun kv => kv.1 == k) with
     | some kv => py_eq v kv.2
     | none => false) && py_eq_fields rest b

end

/-- Embedding of Jsonata.evaluate_numeric_expression
(src/jsonata/Jsonata/Jsonata.py, lines 773-812).  The source checks the
operand types first (T2001 for a present non-numeric left operand, then
T2002 for the right), only then propagates absence, converts both sides
with float() (exact here), computes the operation, and finally applies
convert_number.  The percent operator is int(math.fmod(lhs, rhs)).
Python raises ZeroDivisionError / ValueError on a zero right operand of
a division / fmod; these interpreter-level exceptions are modelled with
the codes named after them. -/
def present_non_numeric : Option JValue → Bool
  | some v => !(is_numeric v)
  | none => false

def evaluate_numeric_expression (lhs rhs : Option JValue) (op : String) :
    Except JErr (Option JValue) := do
  if present_non_numeric lhs then
    throw ⟨"T2001", -1, [some (.strv op), lhs]⟩
  else if present_non_numeric rhs then
    throw ⟨"T2002", -1, [some (.strv op), rhs]⟩
  else
    match lhs, rhs with
    | none, _ => return none
    | _, none => return none
    | some lv, some rv =>
      let l := to_rat lv
      let r := to_rat rv
      if op = "+" then return convert_number (l + r)
      else if op = "-" then return convert_number (l - r)
      else if op = "*" then return convert_number (l * r)
      else if op = "/" then
        if r = 0 then throw ⟨"ZeroDivisionError", -1, []⟩
        else return convert_number (l / r)
      else if op = "%" then
        if r = 0 then throw ⟨"ValueError", -1, []⟩
        else return convert_number ((rat_trunc (py_fmod l r) : Rat))
      else
        -- result keeps its initialisation value 0 for any other opcode
        return convert_number 0

/-- Embedding of Jsonata.evaluate_equality_expression
(src/jsonata/Jsonata/Jsonata.py, lines 821-850): an absent side gives
False for both operators; otherwise both sides are converted int-to-float
(the identity in the rational model, and Python == already identifies
1 and 1.0) and compared with Python equality. -/
def evaluate_equality_expression (lhs rhs : Option JValue) (op : String) :
    Option JValue :=
  match lhs, rhs with
  | none, _ => some (.boolv false)
  | _, none => some (.boolv false)
  | some l, some r =>
    if op = "=" then some (.boolv (py_eq l r))
    else if op = "!=" then some (.boolv (!py_eq l r))
    else none

/-- Python comparability test of evaluate_comparison_expression: None,
strings, and non-bool numbers are comparable. -/
def comparable_side : Option JValue → Bool
  | none => true
  | some (.strv _) => true
  | some v => is_numeric v

/-- Embedding of Jsonata.evaluate_comparison_expression
(src/jsonata/Jsonata/Jsonata.py, lines 859-921): a non-comparable side
raises T2010; an absent side yields absent; operands of different Python
types are either both numeric (compared as floats) or raise T2009;
otherwise strings compare lexicographically and numbers numerically. -/
def same_py_type : JValue → JValue → Bool
  | .strv _, .strv _ => true
  | .intv _, .intv _ => true
  | .floatv _, .floatv _ => true
  | .boolv _, .boolv _ => true
  | _, _ => false

def compare_vals (l r : JValue) (op : String) : Option JValue :=
  match l, r with
  | .strv a, .strv b =>
    if op = "<" then some (.boolv (decide (a < b)))
    else if op = "<=" then some (.boolv (decide (a ≤ b)))
    else if op = ">" then some (.boolv (decide (b < a)))
    else if op = ">=" then some (.boolv (decide (b ≤ a)))
    else none
  | _, _ =>
    let a := to_rat l
    let b := to_rat r
    if op = "<" then some (.boolv (decide (a < b)))
    else if op = "<=" then some (.boolv (decide (a ≤ b)))
    else if op = ">" then some (.boolv (decide (b < a)))
    else if op = ">=" then some (.boolv (decide (b ≤ a)))
    else none

def evaluate_comparison_expression (lhs rhs : Option JValue) (op : String) :
    Except JErr (Option JValue) := do
  if comparable_side lhs = false || comparable_side rhs = false then
    throw ⟨"T2010", 0, [if lhs.isSome then lhs else rhs]⟩
  else
    match lhs, rhs with
    | none, _ => return none
    | _, none => return none
    | some l, some r =>
      if same_py_type l r then return compare_vals l r op
      else if is_numeric l && is_numeric r then return compare_vals l r op
      else throw ⟨"T2009", 0, [some l, some r]⟩

/-- Embedding of Utils.RangeList (src/jsonata/Utils/RangeList.py): a
list-like range object storing its two construction arguments.  Its
observable behaviour is given by the three functions below, one per
dunder method of the class. -/
structure RangeList where
  a : Int
  b : Int
  deriving Repr

/-- The size attribute set by RangeList init: b - a + 1. -/
def RangeList.size (r : RangeList) : Int := r.b - r.a + 1

/-- Embedding of RangeList len: returns the size attribute. -/
def RangeList.len (r : RangeList) : Int := r.size

/-- Embedding of RangeList getitem: for index < size the value a + index
passed through convert_number, otherwise IndexError. -/
def RangeList.getitem (r : RangeList) (index : Int) : Except JErr (Option JValue) :=
  if index < r.size then .ok (convert_number ((r.a + index : Int) : Rat))
  else .error ⟨"IndexError", -1, [some (.intv index)]⟩

/-- Embedding of RangeList iter: iter(range(a, b)), the Python range
being exclusive of its upper end, so the elements a, a+1, ..., b-1. -/
def RangeList.iter_elems (r : RangeList) : List Int :=
  (List.range (r.b - r.a).toNat).map (fun i => r.a + (i : Int))

/-- Embedding of Jsonata.evaluate_range_expression
(src/jsonata/Jsonata/Jsonata.py, lines 1145-1183): booleans and
non-integers raise T2003 / T2004, an absent side gives absent, lhs > rhs
gives absent, a size rhs - lhs + 1 above 1e7 raises D2014, and otherwise
the result is RangeList(lhs, rhs + 1). -/
def range_side_bad : Option JValue → Bool
  | none => false
  | some (.intv _) => false
  | some _ => true

def evaluate_range_expression (lhs rhs : Option JValue) :
    Except JErr (Option RangeList) := do
  if range_side_bad lhs then
    throw ⟨"T2003", -1, [lhs]⟩
  else if range_side_bad rhs then
    throw ⟨"T2004", -1, [rhs]⟩
  else
    match lhs, rhs with
    | none, _ => return none
    | _, none => return none
    | some (.intv l), some (.intv r) =>
      if l > r then return none
      else
        let size := r - l + 1
        if size > 10000000 then throw ⟨"D2014", -1, [some (.intv size)]⟩
        else return some ⟨l, r + 1⟩
    | _, _ => return none

/-! Signature validator (src/jsonata/Signature/Signature.py and Param.py). -/

/-- Embedding of Signature.Param (src/jsonata/Signature/Param.py): the
type code, the regex fragment as the literal string built by
parse_signature, the context flag, the array flag and the subtype. -/
structure Param where
  type : Option String := none
  regex : Option String := none
  context : Bool := false
  array : Bool := false
  subtype : Option String := none
  deriving Repr

/-- Embedding of Signature.get_symbol: the one-letter type code of a
runtime value.  The source tests function first (no function values are
modelled), then str, bool, int or float, list, dict; anything else,
including the NullValue sentinel, falls into the final else branch and
yields the code m, and Python None yields m at the top. -/
def get_symbol : Option JValue → Char
  | none => 'm'
  | some v =>
    match v with
    | .strv _ => 's'
    | .boolv _ => 'b'
    | .intv _ => 'n'
    | .floatv _ => 'n'
    | .arr _ => 'a'
    | .obj _ => 'o'
    | .nullv => 'm'

/-- Embedding of Signature.find_closing_bracket: advance from start until
the bracket depth returns to zero, returning the position of the closing
symbol.  Fuel-driven transcription of the while loop; on an unbalanced
signature the source would index past the end of the string, which the
model renders by returning the final position reached. -/
def find_closing_bracket (s : List Char) (start : Nat) (openSym closeSym : Char) : Nat :=
  go s (s.length + 1) start 1
where
  go (s : List Char) (fuel : Nat) (position : Nat) (depth : Nat) : Nat :=
    match fuel with
    | 0 => position
    | fuel' + 1 =>
      if position + 1 < s.length then
        let position := position + 1
        let symbol := s.getD position ' '
        if symbol = closeSym then
          if depth - 1 = 0 then position
          else go s fuel' position (depth - 1)
        else if symbol = openSym then go s fuel' position (depth + 1)
        else go s fuel' position depth
      else position + 1

/-- State of the parse_signature loop: the completed parameter list, the
parameter under construction, and whether prev still aliases the current
parameter (before the first call of next, _prev_param is _param). -/
structure SigParseState where
  params : List Param := []
  param : Param := {}
  prevIsCur : Bool := true
  deriving Repr

/-- Modification of the _prev_param alias: before the first next() it is
the current parameter, afterwards the last completed one. -/
def SigParseState.modPrev (st : SigParseState) (f : Param → Param) : SigParseState :=
  if st.prevIsCur then { st with param := f st.param }
  else
    match st.params.reverse with
    | [] => st
    | p :: rest => { st with params := (f p :: rest).reverse }

/-- The prev parameter read back (for the subtype guard on the type
field). -/
def SigParseState.prevParam (st : SigParseState) : Param :=
  if st.prevIsCur then st.param
  else (st.params.reverse.headD {})

/-- Embedding of Signature.next: append the current parameter, make it
prev, and start a fresh one. -/
def SigParseState.pushNext (st : SigParseState) : SigParseState :=
  { params := st.params ++ [st.param], param := {}, prevIsCur := false }

/-- Embedding of the body of Signature.parse_signature
(src/jsonata/Signature/Signature.py, lines 163-262): one step per symbol
starting at position 1, with the position jumps of the bracket cases.
Choice groups containing parameterized types raise (RuntimeError in the
source, modelled as the error string).  The final regex string assembly
(caret, one group per parameter, dollar) is represented by the parameter
list itself; see re_fullmatch_groups for its interpretation. -/
def parse_signature_go (s : List Char) (fuel : Nat) (position : Nat)
    (st : SigParseState) : Except String (List Param) :=
  match fuel with
  | 0 => .ok st.params
  | fuel' + 1 =>
    if position < s.length then
      let symbol := s.getD position ' '
      if symbol = ':' then .ok st.params
      else if symbol = 's' ∨ symbol = 'n' ∨ symbol = 'b' ∨ symbol = 'l' ∨ symbol = 'o' then
        let st := { st with param := { st.param with
          regex := some ("[" ++ String.mk [symbol] ++ "m]"), type := some (String.mk [symbol]) } }
        parse_signature_go s fuel' (position + 1) st.pushNext
      else if symbol = 'a' then
        let st := { st with param := { st.param with
          regex := some "[asnblfom]", type := some "a", array := true } }
        parse_signature_go s fuel' (position + 1) st.pushNext
      else if symbol = 'f' then
        let st := { st with param := { st.param with
          regex := some "f", type := some "f" } }
        parse_signature_go s fuel' (position + 1) st.pushNext
      else if symbol = 'j' then
        let st := { st with param := { st.param with
          regex := some "[asnblom]", type := some "j" } }
        parse_signature_go s fuel' (position + 1) st.pushNext
      else if symbol = 'x' then
        let st := { st with param := { st.param with
          regex := some "[asnblfom]", type := some "x" } }
        parse_signature_go s fuel' (position + 1) st.pushNext
      else if symbol = '-' then
        let st := st.modPrev fun p =>
          { p with context := true, regex := some ((p.regex.getD "") ++ "?") }
        parse_signature_go s fuel' (position + 1) st
      else if symbol = '?' ∨ symbol = '+' then
        let st := st.modPrev fun p =>
          { p with regex := some ((p.regex.getD "") ++ String.mk [symbol]) }
        parse_signature_go s fuel' (position + 1) st
      else if symbol = '(' then
        let endParen := find_closing_bracket s position '(' ')'
        let choice := String.mk ((s.drop (position + 1)).take (endParen - position - 1))
        if (choice.toList.contains '<') = false then
          let st := { st with param := { st.param with
            regex := some ("[" ++ choice ++ "m]"),
            type := some ("(" ++ choice ++ ")") } }
          parse_signature_go s fuel' (endParen + 1) st.pushNext
        else
          .error "Choice groups containing parameterized types are not supported"
      else if symbol = '<' then
        match st.prevParam.type with
        | some t =>
          if t = "a" ∨ t = "f" then
            let endPos := find_closing_bracket s position '<' '>'
            let sub := String.mk ((s.drop (position + 1)).take (endPos - position - 1))
            let st := st.modPrev fun p => { p with subtype := some sub }
            parse_signature_go s fuel' (endPos + 1) st
          else
            let endPos := find_closing_bracket s position '<' '>'
            parse_signature_go s fuel' (endPos + 1) st
        | none =>
          let endPos := find_closing_bracket s position '<' '>'
          parse_signature_go s fuel' (endPos + 1) st
      else
        parse_signature_go s fuel' (position + 1) st
    else .ok st.params

/-- Embedding of Signature.parse_signature, entered at position 1 as in
the source (the signature string starts with an opening angle bracket). -/
def parse_signature (signature : String) : Except String (List Param) :=
  parse_signature_go signature.toList (signature.length + 1) 1 {}

/-! A small interpreter for the regex dialect emitted by parse_signature.
Each parameter regex is a character class (or the single literal f)
followed by quantifier characters; the full signature pattern is the
anchored concatenation of one capture group per parameter.  The matcher
below implements the leftmost-greedy backtracking semantics of the
Python re module for exactly this fragment. -/

inductive Quant where
  | one
  | opt
  | plus
  | optLazy
  | plusLazy
  deriving Repr, DecidableEq

structure ClassRE where
  chars : List Char
  quant : Quant
  deriving Repr

/-- Parse a parameter regex string such as [snm], [sm]?, f, a+ into its
character class and quantifier. -/
def parse_param_regex (s : String) : ClassRE :=
  let cs := s.toList
  match cs with
  | '[' :: rest =>
    let chars := rest.takeWhile (fun c => c ≠ ']')
    let tail := (rest.dropWhile (fun c => c ≠ ']')).drop 1
    ⟨chars, quant_of tail⟩
  | c :: rest => ⟨[c], quant_of rest⟩
  | [] => ⟨[], .one⟩
where
  quant_of : List Char → Quant
    | [] => .one
    | ['?'] => .opt
    | ['+'] => .plus
    | ['?', '?'] => .optLazy
    | ['+', '?'] => .plusLazy
    | _ => .one

/-- Candidate match lengths for one quantified class against an input of
the given remaining length, in the preference order used by Python
(greedy quantifiers longest first, lazy shortest first). -/
def quant_candidates : Quant → Nat → List Nat
  | .one, _ => [1]
  | .opt, _ => [1, 0]
  | .plus, n => (List.range n).reverse.map (· + 1)
  | .optLazy, _ => [0, 1]
  | .plusLazy, n => (List.range n).map (· + 1)

/-- Take k characters from s, all required to belong to the class. -/
def take_class (chars : List Char) (s : List Char) (k : Nat) :
    Option (List Char × List Char) :=
  let pre := s.take k
  if pre.length = k ∧ pre.all (fun c => chars.contains c) then some (pre, s.drop k)
  else none

/-- Anchored match of a group sequence against the whole input, returning
the capture of every group; none when no assignment matches.  This is
re.fullmatch on the pattern caret group1 ... groupN dollar. -/
def re_fullmatch_groups : List ClassRE → List Char → Option (List (List Char))
  | [], s => if s.isEmpty then some [] else none
  | p :: ps, s =>
    (quant_candidates p.quant s.length).firstM fun k => do
      let (pre, rest) ← take_class p.chars s k
      let groups ← re_fullmatch_groups ps rest
      return (pre :: groups)

/-- Boolean fullmatch of a single parameter regex against a string, used
by the context-substitution check of validate. -/
def re_fullmatch_single (regex : String) (s : List Char) : Bool :=
  (re_fullmatch_groups [parse_param_regex regex] s).isSome

/-- Embedding of Signature.throw_validation_error
(src/jsonata/Signature/Signature.py, lines 264-285): the loop grows the
partial pattern one parameter regex at a time and applies re.fullmatch
of the partial pattern to the whole supplied type-code string; on the
first failure it raises T0410 with good_to + 1, where good_to is 0
initially and otherwise the end of the previous fullmatch, which for a
fullmatch is the length of the supplied string. -/
def throw_validation_error (params : List Param) (badSig : List Char)
    (functionName : String) : JErr :=
  go params [] 0
where
  go : List Param → List ClassRE → Nat → JErr
    | [], _, goodTo =>
      ⟨"T0410", -1, [some (.intv (goodTo + 1)), some (.strv functionName)]⟩
    | p :: ps, acc, goodTo =>
      let acc := acc ++ [parse_param_regex (p.regex.getD "")]
      match re_fullmatch_groups acc badSig with
      | none => ⟨"T0410", -1, [some (.intv (goodTo + 1)), some (.strv functionName)]⟩
      | some _ => go ps acc badSig.length

/-- One step of the validated-argument construction of Signature.validate
for a parameter whose capture is not empty: the per-single loop.  The
source keeps the loop index arg_index across parameters. -/
def validate_singles (param : Param) (matchStr : List Char)
    (args : List (Option JValue)) :
    List Char → Nat → List (Option JValue) →
    Except JErr (Nat × List (Option JValue))
  | [], argIndex, acc => .ok (argIndex, acc)
  | single :: rest, argIndex, acc =>
    if param.type = some "a" then
      if single = 'm' then
        validate_singles param matchStr args rest (argIndex + 1) (acc ++ [none])
      else
        let arg := (args.get? argIndex).join
        let arrayOk :=
          match param.subtype with
          | none => true
          | some sub =>
            if single ≠ 'a' ∧ matchStr ≠ sub.toList then false
            else if single = 'a' then
              match arg with
              | some (.arr items) =>
                match items with
                | [] => true
                | it0 :: _ =>
                  let itemType := get_symbol (some it0)
                  if itemType ≠ sub.toList.headD ' ' then false
                  else items.all (fun o => get_symbol (some o) = itemType)
              | _ => true
            else true
        if arrayOk = false then
          .error ⟨"T0412", -1, [arg, some (.strv (param.subtype.getD ""))]⟩
        else
          let arg := if single ≠ 'a' then
              (match arg with
               | some v => some (.arr [v])
               -- a missing argument cannot reach this wrap: single is not m
               | none => some (.arr []))
            else arg
          validate_singles param matchStr args rest (argIndex + 1) (acc ++ [arg])
    else
      let arg := (args.get? argIndex).join
      validate_singles param matchStr args rest (argIndex + 1) (acc ++ [arg])

/-- The per-parameter loop of Signature.validate on a successful match.
The source initialises index = 0 next to arg_index = 0 but never
increments index, so the capture examined is group(1), the first
parameter capture, for every parameter; this transcription preserves
that behaviour by always reading the head of the group list. -/
def validate_params (groups : List (List Char)) (args : List (Option JValue))
    (context : Option JValue) :
    List Param → Nat → List (Option JValue) →
    Except JErr (List (Option JValue))
  | [], _, acc => .ok acc
  | param :: rest, argIndex, acc =>
    let arg := (args.get? argIndex).join
    let matchStr := groups.headD []
    if matchStr.isEmpty then
      if param.context ∧ param.regex.isSome then
        let contextType := get_symbol context
        if re_fullmatch_single (param.regex.getD "") [contextType] then
          validate_params groups args context rest argIndex (acc ++ [context])
        else
          .error ⟨"T0411", -1, [context, some (.intv (argIndex + 1))]⟩
      else
        validate_params groups args context rest (argIndex + 1) (acc ++ [arg])
    else
      match validate_singles param matchStr args matchStr argIndex acc with
      | .error e => .error e
      | .ok (argIndex', acc') =>
        validate_params groups args context rest argIndex' acc'

/-- Embedding of Signature.validate
(src/jsonata/Signature/Signature.py, lines 287-356): compute the supplied
type-code string, run the compiled matcher, and on success walk the
parameters producing validated and coerced arguments; on failure defer
to throw_validation_error. -/
def validate (params : List Param) (functionName : String)
    (args : List (Option JValue)) (context : Option JValue) :
    Except JErr (List (Option JValue)) :=
  let suppliedSig := args.map get_symbol
  match re_fullmatch_groups (params.map fun p => parse_param_regex (p.regex.getD ""))
      suppliedSig with
  | some groups => validate_params groups args context params 0 []
  | none => .error (throw_validation_error params suppliedSig functionName)

/-! Group-by evaluation (Jsonata.evaluate_group_expression). -/

/-- Modelled from the spec: Functions.append of the builtin library (the
module Functions/Functions.py is not present under src; only Comparator,
Encoder and RegexpMatch are).  The spec describes it as the
append-with-flattening rule: an absent side yields the other side, a
non-array side is wrapped into a one-element array, and the two arrays
are concatenated. -/
def functions_append (a b : Option JValue) : Option JValue :=
  match a with
  | none => b
  | some av =>
    match b with
    | none => a
    | some bv =>
      let al := match av with | .arr xs => xs | v => [v]
      let bl := match bv with | .arr xs => xs | v => [v]
      some (.arr (al ++ bl))

/-- Embedding of Jsonata.GroupEntry (src/jsonata/Jsonata/GroupEntry.py). -/
structure GroupEntry where
  data : Option JValue
  exprIndex : Nat
  deriving Repr

/-- The input sequencing at the top of evaluate_group_expression: a
non-list input is wrapped by create_sequence into a one-element
sequence, and an empty list receives an appended None entry so a literal
object can be produced. -/
def group_items : Option JValue → List (Option JValue)
  | some (.arr elems) => if elems.isEmpty then [none] else elems.map some
  | v => [v]

/-- The inner per-pair loop of the grouping phase of
evaluate_group_expression (src/jsonata/Jsonata/Jsonata.py, lines
1065-1089), for one input item: evaluate each key expression against the
item; a present non-string key raises T1003; a key produced by a
different pair than the existing entry raises D1009; a repeated key from
the same pair appends the item to the entry data with the
append-with-flattening rule.  The evaluator self.eval is abstracted as
the parameter evalFn (the tuple-stream reduce branch does not arise for
the plain sequence inputs treated here, so the key context is the item
itself).  Groups are an insertion-ordered association list, as a Python
dict is. -/
def group_scan_item {α : Type} (evalFn : α → Option JValue → Except JErr (Option JValue))
    (position : Int) (item : Option JValue) :
    List (α × α) → Nat → List (String × GroupEntry) →
    Except JErr (List (String × GroupEntry))
  | [], _, groups => .ok groups
  | (kexpr, _) :: rest, pairIndex, groups => do
    let key ← evalFn kexpr item
    match key with
    | none => group_scan_item evalFn position item rest (pairIndex + 1) groups
    | some (.strv ks) =>
      match groups.find? (fun g => g.1 == ks) with
      | some (_, entry) =>
        if entry.exprIndex ≠ pairIndex then
          .error ⟨"D1009", position, [key]⟩
        else
          let groups := groups.map fun g =>
            if g.1 == ks then (g.1, ⟨functions_append entry.data item, entry.exprIndex⟩)
            else g
          group_scan_item evalFn position item rest (pairIndex + 1) groups
      | none =>
        group_scan_item evalFn position item rest (pairIndex + 1)
          (groups ++ [(ks, ⟨item, pairIndex⟩)])
    | some other => .error ⟨"T1003", position, [some other]⟩

/-- The outer item loop of the grouping phase. -/
def group_scan {α : Type} (evalFn : α → Option JValue → Except JErr (Option JValue))
    (position : Int) (pairs : List (α × α)) :
    List (Option JValue) → List (String × GroupEntry) →
    Except JErr (List (String × GroupEntry))
  | [], groups => .ok groups
  | item :: items, groups => do
    let groups ← group_scan_item evalFn position item pairs 0 groups
    group_scan evalFn position pairs items groups

/-- The value-emission phase of evaluate_group_expression (lines
1093-1109): for each group entry, evaluate the value expression of the
pair that produced the key against the accumulated data; an absent
result omits the key. -/
def group_emit {α : Type} (evalFn : α → Option JValue → Except JErr (Option JValue))
    (pairs : List (α × α)) :
    List (String × GroupEntry) → Except JErr (List (String × JValue))
  | [] => .ok []
  | (k, entry) :: rest => do
    match pairs.get? entry.exprIndex with
    | none => .error ⟨"IndexError", -1, []⟩
    | some pr => do
      let res ← evalFn pr.2 entry.data
      let tail ← group_emit evalFn pairs rest
      match res with
      | none => return tail
      | some v => return (k, v) :: tail

/-- Embedding of Jsonata.evaluate_group_expression
(src/jsonata/Jsonata/Jsonata.py, lines 1035-1118) for plain (non
tuple-stream) inputs, with self.eval abstracted as evalFn and
expr.position as the position parameter. -/
def evaluate_group_expression {α : Type}
    (evalFn : α → Option JValue → Except JErr (Option JValue))
    (position : Int) (pairs : List (α × α)) (input_item : Option JValue) :
    Except JErr (List (String × JValue)) := do
  let groups ← group_scan evalFn position pairs (group_items input_item) []
  group_emit evalFn pairs groups

/-- Concrete key and value expressions used by the group-by examples,
together with the behaviour self.eval gives them: keyA is the name a
(field lookup in the context object), keyStrA is the string coercion of
that field, keyConst is a string literal, valCount counts the context
(an array counts its elements, a single present value counts 1). -/
inductive GExpr where
  | keyA
  | keyStrA
  | keyConst (s : String)
  | valCount
  deriving Repr

def gexpr_eval : GExpr → Option JValue → Except JErr (Option JValue)
  | .keyA, some (.obj fields) => .ok ((fields.find? (fun kv => kv.1 == "a")).map (·.2))
  | .keyA, _ => .ok none
  | .keyStrA, some (.obj fields) =>
    .ok ((fields.find? (fun kv => kv.1 == "a")).map fun kv =>
      match kv.2 with
      | .intv n => .strv (toString n)
      | .strv s => .strv s
      | v => .strv (toString (repr v)))
  | .keyStrA, _ => .ok none
  | .keyConst s, _ => .ok (some (.strv s))
  | .valCount, some (.arr items) => .ok (some (.intv items.length))
  | .valCount, none => .ok (some (.intv 0))
  | .valCount, some _ => .ok (some (.intv 1))

/-! Parser semantic pass (Parser.process_ast and tail_call_optimize). -/

/-- Raw parse-tree fragment relevant to the path-flattening and
tail-call claims, one constructor per Symbol type string produced by the
Pratt parser: name, string, number, value (true, false, null), the
binary dot, function calls, conditions, blocks and lambda definitions. -/
inductive Ast where
  | name (value : String)
  | strlit (value : String)
  | numlit (value : Rat)
  | vallit (value : Option JValue)
  | dot (lhs rhs : Ast)
  | call (procedure : Ast) (arguments : List Ast)
  | cond (condition thenB : Ast) (elseB : Option Ast)
  | block (expressions : List Ast)
  | lam (arguments : List String) (body : Ast)
  deriving Repr

/-- Processed-tree fragment produced by process_ast: a path node with
its ordered steps and the keep-singleton-array flag, name steps, the
literal nodes, calls carrying the predicate and stages attachments, and
lambda nodes carrying the thunk flag.  The unary constructor stands for
the array and object constructor nodes consumed by evaluate_unary (their
processing is outside the embedded process_ast fragment).  Fields such
as positions, keep_array on raw steps, focus, index and ancestry do not
arise in this fragment and are not modelled. -/
inductive PSym where
  | path (steps : List PSym) (keepSingletonArray : Bool)
  | nameStep (value : String)
  | strNode (value : String)
  | numNode (value : Rat)
  | valNode (value : Option JValue)
  | call (procedure : PSym) (arguments : List PSym)
      (predicate : Option (List PSym)) (stages : Option (List PSym))
  | cond (condition thenB : PSym) (elseB : Option PSym)
  | block (expressions : List PSym)
  | lam (arguments : List String) (body : PSym) (thunk : Bool)
  | unary (value : String) (expressions : List PSym) (consarray : Bool)
  deriving Repr

mutual

/-- Embedding of Parser.tail_call_optimize
(src/jsonata/Parser/Parser.py, lines 359-395): a function call with no
predicate becomes a lambda node with thunk true, no arguments and the
call as body; a condition has both branches analysed; a block has only
its last expression analysed; everything else is returned unchanged. -/
def tail_call_optimize : PSym → PSym
  | .call procedure arguments none stages =>
    .lam [] (.call procedure arguments none stages) true
  | .call procedure arguments (some p) stages =>
    .call procedure arguments (some p) stages
  | .cond c t none => .cond c (tail_call_optimize t) none
  | .cond c t (some eb) =>
    .cond c (tail_call_optimize t) (some (tail_call_optimize eb))
  | .block es => .block (tco_last es)
  | e => e

/-- Only the last expression of a block is analysed. -/
def tco_last : List PSym → List PSym
  | [] => []
  | [x] => [tail_call_optimize x]
  | x :: xs => x :: tco_last xs

end

/-- The per-step scan of the binary dot branch of process_ast: any step
that is a number or a value literal raises S0213 (positions are not
modelled, the location field is -1); any string-literal step becomes a
name step. -/
def check_steps : List PSym → Except JErr (List PSym)
  | [] => .ok []
  | step :: rest => do
    match step with
    | .numNode q => .error ⟨"S0213", -1, [some (.floatv q)]⟩
    | .valNode v => .error ⟨"S0213", -1, [v]⟩
    | .strNode s => return (.nameStep s) :: (← check_steps rest)
    | s => return s :: (← check_steps rest)

/-- Embedding of the fragment of Parser.process_ast
(src/jsonata/Parser/Parser.py, lines 492-878) covering the constructors
of Ast.  In the binary dot branch the left result is reused when it is
already a path and wrapped into a fresh path otherwise; the right result
contributes its steps when it is a path and becomes one appended step
otherwise, with a predicate moved to stages; afterwards the collected
steps are scanned (string steps become name steps, literal steps raise
S0213).  The keep-array flag propagation, the consarray flagging of
array-constructor end steps, the next_function chaining hint and
resolve_ancestry act on constructs that do not occur in this fragment
(no raw step carries keep_array, no step is a unary constructor, no
parent references exist), so they leave the result unchanged here.  A
bare name is wrapped into a single-step path; literals are returned
unchanged; arguments, procedure, branches and block expressions are
processed recursively; a lambda body is processed and then passed
through tail_call_optimize. -/
def process_ast : Ast → Except JErr PSym
  | .name v => .ok (.path [.nameStep v] false)
  | .strlit s => .ok (.strNode s)
  | .numlit q => .ok (.numNode q)
  | .vallit v => .ok (.valNode v)
  | .dot lhs rhs => do
    let lstep ← process_ast lhs
    let baseSteps := match lstep with
      | .path steps _ => steps
      | _ => [lstep]
    let baseFlag := match lstep with
      | .path _ flag => flag
      | _ => false
    let rest ← process_ast rhs
    let steps := match rest with
      | .path rsteps _ => baseSteps ++ rsteps
      | .call p a (some pred) _ => baseSteps ++ [.call p a none (some pred)]
      | r => baseSteps ++ [r]
    let steps ← check_steps steps
    .ok (.path steps baseFlag)
  | .call procedure arguments => do
    let args ← process_list arguments
    let proc ← process_ast procedure
    .ok (.call proc args none none)
  | .cond c t e => do
    let pc ← process_ast c
    let pt ← process_ast t
    match e with
    | none => .ok (.cond pc pt none)
    | some eb => do
      let pe ← process_ast eb
      .ok (.cond pc pt (some pe))
  | .block es => do
    let pes ← process_list es
    .ok (.block pes)
  | .lam arguments body => do
    let pbody ← process_ast body
    .ok (.lam arguments (tail_call_optimize pbody) false)
where
  process_list : List Ast → Except JErr (List PSym)
    | [] => .ok []
    | x :: xs => do
      let px ← process_ast x
      let pxs ← process_list xs
      .ok (px :: pxs)

/-! Function application trampoline (Jsonata.apply). -/

/-- A tail-call thunk as unpacked by the trampoline: the expression of
the called procedure, the argument expressions, and the input and
environment captured when the thunk was produced (abstracted as one
context value of type chi).  Expressions are abstracted as indices
interpreted by the eval function parameter. -/
structure ThunkData (χ : Type) where
  procedure : Nat
  arguments : List Nat
  context : χ

/-- A result of apply_inner: either an ordinary value, or a lambda with
the thunk flag set (the tail-call marker produced by
tail_call_optimize), which Functions.is_lambda recognises.  The module
Functions/Functions.py is not under src; is_lambda is modelled from the
spec as the recogniser of this variant. -/
inductive AResult (χ : Type) where
  | value (v : Option JValue)
  | thunkRes (t : ThunkData χ)

def AResult.is_thunk {χ : Type} : AResult χ → Bool
  | .value _ => false
  | .thunkRes _ => true

/-- Embedding of the trampoline loop of Jsonata.apply
(src/jsonata/Jsonata/Jsonata.py, lines 1638-1658): while the result is a
thunk lambda, evaluate its procedure expression and argument expressions
in the captured context and re-apply through apply_inner; self.eval and
self.apply_inner are abstracted as parameters.  The source loop can
iterate unboundedly, so the embedding is fuel-indexed and returns none
on fuel exhaustion. -/
def apply_tramp {χ : Type} (eval_fn : Nat → χ → Option JValue)
    (apply_inner_fn : Option JValue → List (Option JValue) → AResult χ) :
    Nat → AResult χ → Option (AResult χ)
  | _, .value v => some (.value v)
  | 0, .thunkRes _ => none
  | fuel + 1, .thunkRes t =>
    let next := eval_fn t.procedure t.context
    let evaluatedArgs := t.arguments.map fun a => eval_fn a t.context
    apply_tramp eval_fn apply_inner_fn fuel (apply_inner_fn next evaluatedArgs)

/-! Result mangling and unary evaluation (Jsonata eval, evaluate_unary). -/

/-- A transient evaluator result: either a plain value or a JList
carrying the Jsonata flags of src/jsonata/Utils/JList.py (sequence,
tuple_stream, keep_singleton, cons; the outer_wrapper flag plays no part
in the mangling step and is omitted). -/
inductive EvalValue where
  | plain (v : JValue)
  | jlist (elems : List JValue) (sequence tuple_stream keep_singleton cons : Bool)
  deriving Repr

/-- Embedding of the result-mangling epilogue of Jsonata eval
(src/jsonata/Jsonata/Jsonata.py, lines 192-201): when the result is a
sequence and not a tuple stream, the keep_array flag of the expression
sets keep_singleton; an empty sequence becomes absent; a one-element
sequence is unwrapped to its element unless keep_singleton is set. -/
def eval_mangle (result : Option EvalValue) (keep_array : Bool) : Option EvalValue :=
  match result with
  | some (.jlist elems sequence tuple_stream keep_singleton cons) =>
    if sequence && !tuple_stream then
      let keep_singleton := if keep_array then true else keep_singleton
      match elems with
      | [] => none
      | [x] =>
        if keep_singleton then some (.jlist elems sequence tuple_stream keep_singleton cons)
        else some (.plain x)
      | _ => some (.jlist elems sequence tuple_stream keep_singleton cons)
    else some (.jlist elems sequence tuple_stream keep_singleton cons)
  | r => r

/-- Embedding of Jsonata.evaluate_unary
(src/jsonata/Jsonata/Jsonata.py, lines 560-620).  The method body sets
result to None, computes str(expr.value), then defines a nested function
that is also named evaluate_unary and carries the negation, array
constructor and object constructor logic of its docstring; the nested
function is never called, and the outer method falls off its end, so
every unary expression evaluates to None.  This transcription therefore
returns none for every input. -/
def evaluate_unary (_expr : PSym) (_input_item : Option EvalValue) : Option EvalValue :=
  none

/-! Helper lemmas about the truncation model and the remainder. -/

theorem rat_trunc_intCast (n : Int) : rat_trunc (n : Rat) = n := by
  unfold rat_trunc
  split
  · rw [show -((n : Rat)) = ((-n : Int) : Rat) by push_cast ; ring,
      Int.floor_intCast, neg_neg]
  · exact Int.floor_intCast n

theorem convert_number_intCast (n : Int) :
    convert_number (n : Rat) = some (.intv n) := by
  simp [convert_number, rat_trunc_intCast]

theorem rat_trunc_le_of_nonneg {q : Rat} (h : 0 ≤ q) : (rat_trunc q : Rat) ≤ q := by
  unfold rat_trunc
  rw [if_neg (not_lt.mpr h)]
  exact Int.floor_le q

theorem sub_one_lt_rat_trunc_of_nonneg {q : Rat} (h : 0 ≤ q) :
    q - 1 < (rat_trunc q : Rat) := by
  unfold rat_trunc
  rw [if_neg (not_lt.mpr h)]
  exact Int.sub_one_lt_floor q

theorem le_rat_trunc_of_nonpos {q : Rat} (h : q ≤ 0) : q ≤ (rat_trunc q : Rat) := by
  unfold rat_trunc
  split
  · push_cast
    have := Int.floor_le (-q)
    linarith
  · next hc =>
    have h0 : q = 0 := le_antisymm h (not_lt.mp hc)
    simp [h0]

theorem rat_trunc_lt_add_one_of_nonpos {q : Rat} (h : q ≤ 0) :
    (rat_trunc q : Rat) < q + 1 := by
  unfold rat_trunc
  split
  · push_cast
    have := Int.sub_one_lt_floor (-q)
    linarith
  · next hc =>
    have h0 : q = 0 := le_antisymm h (not_lt.mp hc)
    simp [h0]

theorem rat_trunc_nonneg {q : Rat} (h : 0 ≤ q) : 0 ≤ rat_trunc q := by
  unfold rat_trunc
  rw [if_neg (not_lt.mpr h)]
  exact Int.floor_nonneg.mpr h

theorem rat_trunc_nonpos {q : Rat} (h : q ≤ 0) : rat_trunc q ≤ 0 := by
  unfold rat_trunc
  split
  · simp only [neg_nonpos]
    exact Int.floor_nonneg.mpr (by linarith)
  · next hc =>
    have h0 : q = 0 := le_antisymm h (not_lt.mp hc)
    simp [h0]

/-- On a nonnegative dividend the modelled fmod is nonnegative and
strictly below the absolute value of the divisor. -/
theorem py_fmod_bounds_of_nonneg {a b : Rat} (hb : b ≠ 0) (ha : 0 ≤ a) :
    0 ≤ py_fmod a b ∧ py_fmod a b < |b| := by
  unfold py_fmod
  have hqb : a / b * b = a := div_mul_cancel₀ a hb
  rcases lt_or_gt_of_ne hb with hbneg | hbpos
  · have hqle : a / b ≤ 0 := div_nonpos_of_nonneg_of_nonpos ha hbneg.le
    have h1 : a / b ≤ (rat_trunc (a / b) : Rat) := le_rat_trunc_of_nonpos hqle
    have h2 : (rat_trunc (a / b) : Rat) < a / b + 1 := rat_trunc_lt_add_one_of_nonpos hqle
    rw [abs_of_neg hbneg]
    constructor
    · nlinarith
    · nlinarith
  · have hqge : 0 ≤ a / b := div_nonneg ha hbpos.le
    have h1 : (rat_trunc (a / b) : Rat) ≤ a / b := rat_trunc_le_of_nonneg hqge
    have h2 : a / b - 1 < (rat_trunc (a / b) : Rat) := sub_one_lt_rat_trunc_of_nonneg hqge
    rw [abs_of_pos hbpos]
    constructor
    · nlinarith
    · nlinarith

theorem rat_trunc_neg (q : Rat) : rat_trunc (-q) = -(rat_trunc q) := by
  rcases lt_trichotomy q 0 with h | h | h
  · unfold rat_trunc
    rw [if_neg (by linarith), if_pos h, neg_neg]
  · simp [h, rat_trunc]
  · unfold rat_trunc
    rw [if_pos (by linarith), if_neg (not_lt.mpr h.le), neg_neg]

theorem py_fmod_neg_left (a b : Rat) : py_fmod (-a) b = -(py_fmod a b) := by
  unfold py_fmod
  rw [neg_div, rat_trunc_neg]
  push_cast
  ring

/-- On a nonpositive dividend the modelled fmod is nonpositive and
strictly above the negated absolute value of the divisor. -/
theorem py_fmod_bounds_of_nonpos {a b : Rat} (hb : b ≠ 0) (ha : a ≤ 0) :
    py_fmod a b ≤ 0 ∧ -|b| < py_fmod a b := by
  have := py_fmod_bounds_of_nonneg hb (a := -a) (by linarith)
  rw [py_fmod_neg_left] at this
  exact ⟨by linarith [this.1], by linarith [this.2]⟩

theorem tco_last_append (es : List PSym) (x : PSym) :
    tco_last (es ++ [x]) = es ++ [tail_call_optimize x] := by
  induction es with
  | nil => rfl
  | cons e es ih =>
    cases es with
    | nil => rfl
    | cons e2 es2 => simpa [tco_last] using ih

/-! Claim theorems. -/

/-- C1: the result-mangling step does turn an empty non-tuple sequence
into absence and unwraps a one-element sequence unless keep_singleton is
set (also set by the keep_array flag of the expression, and not applied
to tuple streams); but the unary array-constructor evaluation never
returns the constructed cons-marked array: evaluate_unary contains an
accidentally nested duplicate definition of itself and the outer method
returns None for every unary expression, the explicit constructor [5]
included. -/
theorem C1_sequence_singleton_and_unary_constructor :
    (∀ keep_array, eval_mangle (some (.jlist [] true false false false)) keep_array = none)
    ∧ (∀ v, eval_mangle (some (.jlist [v] true false false false)) false = some (.plain v))
    ∧ (∀ v, eval_mangle (some (.jlist [v] true false true false)) false
        = some (.jlist [v] true false true false))
    ∧ (∀ v, eval_mangle (some (.jlist [v] true false false false)) true
        = some (.jlist [v] true false true false))
    ∧ (∀ v keep_array, eval_mangle (some (.jlist [v] true true false false)) keep_array
        = some (.jlist [v] true true false false))
    ∧ (∀ e i, evaluate_unary e i = none)
    ∧ evaluate_unary (.unary "[" [.numNode 5] true) none = none := by
  refine ⟨fun ka => ?_, fun v => rfl, fun v => rfl, fun v => rfl,
    fun v ka => ?_, fun e i => rfl, rfl⟩
  · cases ka <;> rfl
  · cases ka <;> rfl

/-- C2: the range operator yields absence for lhs greater than rhs and
raises D2014 above the cap of ten million, but the result of 1..3 is the
object RangeList(1, 4): its iteration does produce 1, 2, 3, yet its
reported length is 4 and index 3 is populated with the value 4, because
evaluate_range_expression passes rhs + 1 to a constructor whose size and
getitem treat the bound as inclusive while its iterator treats it as
exclusive. -/
theorem C2_range_inconsistent_length :
    evaluate_range_expression (some (.intv 1)) (some (.intv 3)) = .ok (some ⟨1, 4⟩)
    ∧ RangeList.iter_elems ⟨1, 4⟩ = [1, 2, 3]
    ∧ RangeList.len ⟨1, 4⟩ = 4
    ∧ RangeList.getitem ⟨1, 4⟩ 3 = .ok (some (.intv 4))
    ∧ evaluate_range_expression (some (.intv 5)) (some (.intv 1)) = .ok none
    ∧ evaluate_range_expression (some (.intv 1)) (some (.intv 10000001))
      = .error ⟨"D2014", -1, [some (.intv 10000001)]⟩ := by
  refine ⟨rfl, rfl, rfl, ?_, rfl, rfl⟩
  show Except.ok (convert_number ((1 + 3 : Int) : Rat)) = _
  rw [convert_number_intCast]
  norm_num

/-- C3: on a signature mismatch the validator applies re.fullmatch of
each growing prefix of the parameter regex to the whole supplied
type-code string rather than a prefix match, so for the two-parameter
signature ss called with a valid first argument and a wrong second
argument the first prefix already fails to fullmatch and the raised
T0410 names position 1, not position 2. -/
theorem C3_validation_error_position :
    parse_signature "<ss>" = .ok
      [{ type := some "s", regex := some "[sm]" },
       { type := some "s", regex := some "[sm]" }]
    ∧ validate
        [{ type := some "s", regex := some "[sm]" },
         { type := some "s", regex := some "[sm]" }]
        "myfn" [some (.strv "ok"), some (.intv 5)] none
      = .error ⟨"T0410", -1, [some (.intv 1), some (.strv "myfn")]⟩ := by
  exact ⟨rfl, rfl⟩

/-- C4 counterexample: grouping the input of the claim by the key
expression a raises the type error T1003, because the key expression
evaluates to the number 1 and a present non-string key is an error; the
claimed result is never produced. -/
theorem C4_counterexample :
    evaluate_group_expression gexpr_eval 0 [(GExpr.keyA, GExpr.valCount)]
      (some (.arr [.obj [("a", .intv 1)], .obj [("a", .intv 1)], .obj [("a", .intv 2)]]))
      = .error ⟨"T1003", 0, [some (.intv 1)]⟩ := by
  rfl

/-- C4 amended: with the string-coerced key expression the grouping of
the claim yields the object mapping 1 to 2 and 2 to 1 (the two items
with equal keys having been accumulated into an array by the same-pair
append rule, as the intermediate group table shows), and two different
key expressions producing the same key raise D1009. -/
theorem C4_group_by_amended :
    evaluate_group_expression gexpr_eval 0 [(GExpr.keyStrA, GExpr.valCount)]
      (some (.arr [.obj [("a", .intv 1)], .obj [("a", .intv 1)], .obj [("a", .intv 2)]]))
      = .ok [("1", .intv 2), ("2", .intv 1)]
    ∧ group_scan gexpr_eval 0 [(GExpr.keyStrA, GExpr.valCount)]
        (group_items (some (.arr [.obj [("a", .intv 1)], .obj [("a", .intv 1)],
          .obj [("a", .intv 2)]]))) []
      = .ok [("1", ⟨some (.arr [.obj [("a", .intv 1)], .obj [("a", .intv 1)]]), 0⟩),
             ("2", ⟨some (.obj [("a", .intv 2)]), 0⟩)]
    ∧ evaluate_group_expression gexpr_eval 0
        [(GExpr.keyConst "x", GExpr.valCount), (GExpr.keyConst "x", GExpr.valCount)]
        (some (.arr [.obj [("a", .intv 1)]]))
      = .error ⟨"D1009", 0, [some (.strv "x")]⟩ := by
  exact ⟨rfl, rfl, rfl⟩

/-- C5 counterexample: with an absent left operand and a present
non-numeric right operand the claim requires an absent result with no
error, but the code raises T2002: the operand type checks precede the
absent-propagation test. -/
theorem C5_counterexample :
    evaluate_numeric_expression none (some (.strv "x")) "+"
      = .error ⟨"T2002", -1, [some (.strv "+"), some (.strv "x")]⟩
    ∧ evaluate_numeric_expression none (some (.strv "x")) "+"
      ≠ .ok none := by
  have h0 : evaluate_numeric_expression none (some (.strv "x")) "+"
      = .error ⟨"T2002", -1, [some (.strv "+"), some (.strv "x")]⟩ := rfl
  refine ⟨h0, fun h => ?_⟩
  rw [h0] at h
  exact Except.noConfusion h

/-- C5 amended: for the arithmetic operators, a present non-numeric left
operand raises T2001, a present non-numeric right operand raises T2002
when the left side passes its check (even when the left side is absent),
and when every present operand is numeric an absent operand makes the
result absent with no error. -/
theorem C5_arithmetic_absent_and_type_errors :
    ∀ op, op ∈ ["+", "-", "*", "/", "%"] →
      (∀ v, is_numeric v = false →
        ∀ rhs, evaluate_numeric_expression (some v) rhs op
          = .error ⟨"T2001", -1, [some (.strv op), some v]⟩)
      ∧ (∀ lhs, present_non_numeric lhs = false →
        ∀ v, is_numeric v = false →
        evaluate_numeric_expression lhs (some v) op
          = .error ⟨"T2002", -1, [some (.strv op), some v]⟩)
      ∧ (∀ rhs, present_non_numeric rhs = false →
        evaluate_numeric_expression none rhs op = .ok none)
      ∧ (∀ v, is_numeric v = true →
        evaluate_numeric_expression (some v) none op = .ok none) := by
  intro op _
  refine ⟨fun v hv rhs => ?_, fun lhs hl v hv => ?_, fun rhs hr => ?_, fun v hv => ?_⟩
  · simp [evaluate_numeric_expression, present_non_numeric, hv, throw, throwThe,
      MonadExceptOf.throw]
  · rcases lhs with _ | lv
    · simp [evaluate_numeric_expression, present_non_numeric, hv, throw, throwThe,
        MonadExceptOf.throw]
    · simp only [present_non_numeric, Bool.not_eq_true'] at hl
      simp [evaluate_numeric_expression, present_non_numeric, hl, hv, throw, throwThe,
        MonadExceptOf.throw]
  · rcases rhs with _ | rv
    · simp [evaluate_numeric_expression, present_non_numeric, pure, Except.pure]
    · simp only [present_non_numeric, Bool.not_eq_true'] at hr
      simp [evaluate_numeric_expression, present_non_numeric, hr, pure, Except.pure]
  · simp [evaluate_numeric_expression, present_non_numeric, hv, pure, Except.pure]

/-- C5 amended witness: the three behaviours at concrete operands of the
plus operator. -/
theorem C5_arithmetic_witness :
    evaluate_numeric_expression (some (.strv "y")) (some (.intv 1)) "+"
      = .error ⟨"T2001", -1, [some (.strv "+"), some (.strv "y")]⟩
    ∧ evaluate_numeric_expression none (some (.strv "x")) "+"
      = .error ⟨"T2002", -1, [some (.strv "+"), some (.strv "x")]⟩
    ∧ evaluate_numeric_expression none (some (.intv 3)) "+" = .ok none
    ∧ evaluate_numeric_expression (some (.intv 3)) none "+" = .ok none := by
  have h := C5_arithmetic_absent_and_type_errors "+" (by simp)
  exact ⟨h.1 (.strv "y") (by decide) (some (.intv 1)),
    h.2.1 none (by decide) (.strv "x") (by decide),
    h.2.2.1 (some (.intv 3)) (by decide),
    h.2.2.2 (.intv 3) (by decide)⟩

/-- C6 counterexample: the percent operator applies int() to the fmod
result, so 5.5 percent 2 evaluates to the integer 1 and not to the
claimed 1.5: the fractional part of the remainder is not preserved. -/
theorem C6_counterexample :
    evaluate_numeric_expression (some (.floatv (11/2))) (some (.intv 2)) "%"
      = .ok (some (.intv 1))
    ∧ evaluate_numeric_expression (some (.floatv (11/2))) (some (.intv 2)) "%"
      ≠ .ok (some (.floatv (3/2))) := by
  constructor
  · norm_num [evaluate_numeric_expression, present_non_numeric, is_numeric, to_rat,
      convert_number, rat_trunc, py_fmod, pure, Except.pure]
    simp +decide
  · intro h
    have h1 : evaluate_numeric_expression (some (.floatv (11/2))) (some (.intv 2)) "%"
        = .ok (some (.intv 1)) := by
      norm_num [evaluate_numeric_expression, present_non_numeric, is_numeric, to_rat,
        convert_number, rat_trunc, py_fmod, pure, Except.pure]
      simp +decide
    rw [h1] at h
    simp at h

/-- C6 amended: the percent operator returns int(fmod(lhs, rhs)), the
C-style truncating remainder further truncated toward zero to an
integer: minus seven percent two is minus one (sign of the dividend, not
the Python floored result one), 5.5 percent 2 is 1, and in general the
result is the truncation of a remainder that carries the sign of the
dividend and has magnitude below the divisor. -/
theorem C6_percent_truncating_remainder :
    evaluate_numeric_expression (some (.intv (-7))) (some (.intv 2)) "%"
      = .ok (some (.intv (-1)))
    ∧ evaluate_numeric_expression (some (.floatv (11/2))) (some (.intv 2)) "%"
      = .ok (some (.intv 1))
    ∧ ∀ a b : Rat, b ≠ 0 →
        evaluate_numeric_expression (some (.floatv a)) (some (.floatv b)) "%"
          = .ok (some (.intv (rat_trunc (py_fmod a b))))
        ∧ (0 ≤ a → 0 ≤ rat_trunc (py_fmod a b))
        ∧ (a ≤ 0 → rat_trunc (py_fmod a b) ≤ 0)
        ∧ |py_fmod a b| < |b| := by
  refine ⟨?_, ?_, ?_⟩
  · norm_num [evaluate_numeric_expression, present_non_numeric, is_numeric, to_rat,
      convert_number, rat_trunc, py_fmod, pure, Except.pure]
    simp +decide
  · norm_num [evaluate_numeric_expression, present_non_numeric, is_numeric, to_rat,
      convert_number, rat_trunc, py_fmod, pure, Except.pure]
    simp +decide
  · intro a b hb
    refine ⟨?_, fun ha => rat_trunc_nonneg (py_fmod_bounds_of_nonneg hb ha).1,
      fun ha => rat_trunc_nonpos (py_fmod_bounds_of_nonpos hb ha).1, ?_⟩
    · simp only [evaluate_numeric_expression, present_non_numeric, is_numeric,
        Bool.not_true, to_rat, pure, Except.pure]
      simp +decide only [Bool.false_eq_true, if_false, String.reduceEq]
      rw [if_neg hb, convert_number_intCast]
      simp
    · rcases le_total 0 a with ha | ha
      · have h := py_fmod_bounds_of_nonneg hb ha
        rw [abs_of_nonneg h.1]
        exact h.2
      · have h := py_fmod_bounds_of_nonpos hb ha
        rw [abs_of_nonpos h.1]
        linarith [h.2]

/-- C6 amended witness: the general percent characterisation applied at
11/2 and 2. -/
theorem C6_percent_witness :
    evaluate_numeric_expression (some (.floatv (11/2))) (some (.floatv 2)) "%"
      = .ok (some (.intv (rat_trunc (py_fmod (11/2) 2))))
    ∧ 0 ≤ rat_trunc (py_fmod (11/2) 2) := by
  have h := C6_percent_truncating_remainder.2.2 (11/2) 2 (by norm_num)
  exact ⟨h.1, h.2.1 (by norm_num)⟩

/-- C7: on a successful signature match: the parameter declared a with
subtype n (the compiled form of the a angle n declaration) called with
the bare number 5 receives the coerced argument, the one-element array
holding 5; called with the mixed array holding 1 and the string x it
raises T0412 carrying the offending array and the subtype; and for the
signature with a context-substitutable first parameter (s minus n), a
call supplying only the number is filled from the call context when the
context type code s matches the parameter regex, and raises T0411 at
position 1 when the context type code n does not. -/
theorem C7_signature_coercion_and_context :
    parse_signature "<a<n>>" = .ok
      [{ type := some "a", regex := some "[asnblfom]", array := true, subtype := some "n" }]
    ∧ validate
        [{ type := some "a", regex := some "[asnblfom]", array := true, subtype := some "n" }]
        "fn" [some (.intv 5)] none
      = .ok [some (.arr [.intv 5])]
    ∧ validate
        [{ type := some "a", regex := some "[asnblfom]", array := true, subtype := some "n" }]
        "fn" [some (.arr [.intv 1, .strv "x"])] none
      = .error ⟨"T0412", -1, [some (.arr [.intv 1, .strv "x"]), some (.strv "n")]⟩
    ∧ parse_signature "<s-n>" = .ok
      [{ type := some "s", regex := some "[sm]?", context := true },
       { type := some "n", regex := some "[nm]" }]
    ∧ (∀ c, get_symbol (some c) = 's' →
        validate
          [{ type := some "s", regex := some "[sm]?", context := true },
           { type := some "n", regex := some "[nm]" }]
          "fn" [some (.intv 5)] (some c)
        = .ok [some c, some (.intv 5)])
    ∧ (∀ c, get_symbol (some c) = 'n' →
        validate
          [{ type := some "s", regex := some "[sm]?", context := true },
           { type := some "n", regex := some "[nm]" }]
          "fn" [some (.intv 5)] (some c)
        = .error ⟨"T0411", -1, [some c, some (.intv 1)]⟩) := by
  refine ⟨rfl, rfl, rfl, rfl, fun c hc => ?_, fun c hc => ?_⟩
  · cases c <;> simp [get_symbol] at hc
    rfl
  · cases c <;> simp [get_symbol] at hc
    all_goals rfl

/-- C7 witness: the context-substitution clauses at a string context and
at a numeric context. -/
theorem C7_signature_witness :
    validate
      [{ type := some "s", regex := some "[sm]?", context := true },
       { type := some "n", regex := some "[nm]" }]
      "fn" [some (.intv 5)] (some (.strv "ctx"))
    = .ok [some (.strv "ctx"), some (.intv 5)]
    ∧ validate
      [{ type := some "s", regex := some "[sm]?", context := true },
       { type := some "n", regex := some "[nm]" }]
      "fn" [some (.intv 5)] (some (.intv 9))
    = .error ⟨"T0411", -1, [some (.intv 9), some (.intv 1)]⟩ :=
  ⟨C7_signature_coercion_and_context.2.2.2.2.1 (.strv "ctx") rfl,
   C7_signature_coercion_and_context.2.2.2.2.2 (.intv 9) rfl⟩

/-- C8: processing a left-nested dot chain of three names yields one
path node whose steps are exactly the three name steps (no nested
path-of-path node); a string-literal step becomes a name step; and a
number, true, false or null literal step raises S0213. -/
theorem C8_path_flattening :
    (∀ a b c : String,
      process_ast (.dot (.dot (.name a) (.name b)) (.name c))
        = .ok (.path [.nameStep a, .nameStep b, .nameStep c] false))
    ∧ (∀ a s : String,
      process_ast (.dot (.name a) (.strlit s))
        = .ok (.path [.nameStep a, .nameStep s] false))
    ∧ (∀ (a : String) (q : Rat),
      process_ast (.dot (.name a) (.numlit q))
        = .error ⟨"S0213", -1, [some (.floatv q)]⟩)
    ∧ (∀ a : String,
      process_ast (.dot (.name a) (.vallit (some (.boolv true))))
        = .error ⟨"S0213", -1, [some (.boolv true)]⟩)
    ∧ (∀ a : String,
      process_ast (.dot (.name a) (.vallit (some (.boolv false))))
        = .error ⟨"S0213", -1, [some (.boolv false)]⟩)
    ∧ (∀ a : String,
      process_ast (.dot (.name a) (.vallit none))
        = .error ⟨"S0213", -1, [none]⟩) := by
  exact ⟨fun a b c => rfl, fun a s => rfl, fun a q => rfl, fun a => rfl,
    fun a => rfl, fun a => rfl⟩

/-- C9: the semantic pass thunks exactly the tail positions: a plain
call with no predicate becomes a lambda with thunk true and the call as
body (a call with a predicate, and every non-call tail expression, is
left unchanged); both branches of a condition and the last expression of
a block are analysed recursively, and a processed lambda body passes
through this rewriting; the trampoline of apply re-applies a thunk by
evaluating its procedure and argument expressions in the captured
context until the result is no longer a thunk, and any result it returns
is not a thunk. -/
theorem C9_tail_call_thunking_and_trampoline :
    (∀ p args st, tail_call_optimize (.call p args none st)
      = .lam [] (.call p args none st) true)
    ∧ (∀ p args pr st, tail_call_optimize (.call p args (some pr) st)
      = .call p args (some pr) st)
    ∧ (∀ c t p args, tail_call_optimize (.cond c t (some (.call p args none none)))
      = .cond c (tail_call_optimize t) (some (.lam [] (.call p args none none) true)))
    ∧ (∀ es p args, tail_call_optimize (.block (es ++ [.call p args none none]))
      = .block (es ++ [.lam [] (.call p args none none) true]))
    ∧ (∀ v, tail_call_optimize (.nameStep v) = .nameStep v)
    ∧ (∀ steps flag, tail_call_optimize (.path steps flag) = .path steps flag)
    ∧ process_ast (.lam ["x"] (.call (.name "f") [.name "x"]))
      = .ok (.lam ["x"]
          (.lam [] (.call (.path [.nameStep "f"] false)
            [.path [.nameStep "x"] false] none none) true) false)
    ∧ (∀ (χ : Type) (e : Nat → χ → Option JValue)
        (ai : Option JValue → List (Option JValue) → AResult χ) fuel r res,
        apply_tramp e ai fuel r = some res → res.is_thunk = false)
    ∧ (∀ (χ : Type) (e : Nat → χ → Option JValue)
        (ai : Option JValue → List (Option JValue) → AResult χ) fuel t,
        apply_tramp e ai (fuel + 1) (.thunkRes t)
        = apply_tramp e ai fuel
            (ai (e t.procedure t.context) (t.arguments.map fun a => e a t.context)))
    ∧ (∀ (χ : Type) (e : Nat → χ → Option JValue)
        (ai : Option JValue → List (Option JValue) → AResult χ) fuel v,
        apply_tramp e ai fuel (.value v) = some (.value v)) := by
  refine ⟨fun p args st => rfl, fun p args pr st => rfl, fun c t p args => rfl,
    fun es p args => ?_, fun v => rfl, fun steps flag => rfl, rfl,
    fun χ e ai fuel r res h => ?_, fun χ e ai fuel t => rfl,
    fun χ e ai fuel v => by cases fuel <;> rfl⟩
  · show PSym.block (tco_last (es ++ [.call p args none none])) = _
    rw [tco_last_append]
    rfl
  · induction fuel generalizing r with
    | zero =>
      cases r with
      | value v => cases h; rfl
      | thunkRes t => exact Option.noConfusion h
    | succ fuel ih =>
      cases r with
      | value v => cases h; rfl
      | thunkRes t => exact ih _ h

/-- C9 witness: a one-step thunk chain resolved by the trampoline; the
returned result is not a thunk. -/
theorem C9_trampoline_witness :
    (apply_tramp (χ := Unit) (fun _ _ => none) (fun _ _ => .value (some (.intv 7)))
        1 (.thunkRes ⟨0, [], ()⟩)).isSome = true
    ∧ AResult.is_thunk (χ := Unit) (.value (some (.intv 7))) = false := by
  refine ⟨rfl, ?_⟩
  exact C9_tail_call_thunking_and_trampoline.2.2.2.2.2.2.2.1 Unit
    (fun _ _ => none) (fun _ _ => .value (some (.intv 7)))
    1 (.thunkRes ⟨0, [], ()⟩) (.value (some (.intv 7))) rfl

/-- C10: for the equality operators an absent operand makes the result
the boolean false, for both the equals and the not-equals opcode and for
either side (both sides absent included), while the ordering comparison
and the arithmetic operators propagate absence as absence. -/
theorem C10_equality_absent_is_false :
    (∀ lhs op, op = "=" ∨ op = "!=" →
      evaluate_equality_expression none lhs op = some (.boolv false)
      ∧ evaluate_equality_expression lhs none op = some (.boolv false))
    ∧ (∀ rhs, comparable_side rhs = true →
      evaluate_comparison_expression none rhs "<" = .ok none)
    ∧ (∀ v, is_numeric v = true →
      evaluate_numeric_expression none (some v) "+" = .ok none) := by
  refine ⟨fun lhs op _ => ⟨?_, ?_⟩, fun rhs hr => ?_, fun v hv => ?_⟩
  · cases lhs <;> rfl
  · cases lhs <;> rfl
  · rcases rhs with _ | rv
    · rfl
    · simp [evaluate_comparison_expression, show comparable_side none = true from rfl,
        hr, pure, Except.pure]
  · simp [evaluate_numeric_expression, present_non_numeric, hv, pure, Except.pure]

/-- C10 witness: both operators at an absent left operand and a present
right operand, the comparison contrast at a numeric right operand, and
the arithmetic contrast. -/
theorem C10_equality_witness :
    evaluate_equality_expression none (some (.intv 1)) "=" = some (.boolv false)
    ∧ evaluate_equality_expression (some (.intv 1)) none "!=" = some (.boolv false)
    ∧ evaluate_comparison_expression none (some (.intv 1)) "<" = .ok none
    ∧ evaluate_numeric_expression none (some (.intv 1)) "+" = .ok none :=
  ⟨(C10_equality_absent_is_false.1 (some (.intv 1)) "=" (Or.inl rfl)).1,
   (C10_equality_absent_is_false.1 (some (.intv 1)) "!=" (Or.inr rfl)).2,
   C10_equality_absent_is_false.2.1 (some (.intv 1)) rfl,
   C10_equality_absent_is_false.2.2 (.intv 1) rfl⟩

end JsonataPy
